import Mathlib

/-!
Verification development for the fiber reconciler.

Part 1 embeds `src/src/renderers/shared/fiber/ReactFiberCompleteWork.js`
(the only reconciler implementation file in the corpus) as executable Lean
definitions.  Dynamic JavaScript values (props, state, text) are modelled by
an opaque type parameter `V` with decidable equality standing for reference
equality; `null`/`undefined` are modelled by `Option`.  The modules this file
imports (`ReactChildFiber`, `ReactFiberContext`, `ReactFiberHostContext`) are
not part of the corpus, so their operations appear as parameters of a
`CompleteWorkEnv`, and the global context/host stacks as an explicit
`StackState` threaded through `completeWork`.

Part 2 models the reconciler behaviours that the corpus documents only through
its spec and tests (update queue, double buffering, passive effects, the
render-phase update cap, keyed reconciliation, the hooks dispatcher); each of
those definitions carries a `Modelled from the spec:` comment naming the
missing module.
-/

namespace ReactFiber

/-- Work tags from `ReactTypeOfWork`; `otherTag n` stands for any numeric tag
value outside the named set (the switch's `default` case). -/
inductive FiberTag where
  | IndeterminateComponent
  | FunctionalComponent
  | ClassComponent
  | HostContainer
  | HostComponent
  | HostText
  | CoroutineComponent
  | CoroutineHandlerPhase
  | YieldComponent
  | Fragment
  | Portal
  | otherTag (n : Nat)
  deriving DecidableEq, Repr

/-- The `effectTag` bitmask (`ReactTypeOfSideEffect`): the source only ever ORs
in the `Update` and `Callback` bits, so the mask is modelled with one Boolean
flag per bit; the placement bit is carried through untouched (markUpdate
"turns a Placement into an UpdateAndPlacement"). -/
structure EffectTag where
  placement : Bool
  update : Bool
  callback : Bool
  deriving DecidableEq, Repr

/-- The two flags of a fiber's update queue that `completeWork` reads. -/
structure UpdateQueueFlags where
  isForced : Bool
  hasCallback : Bool
  deriving DecidableEq, Repr

/-- A fiber's `stateNode`: `null`, a class-component instance (of which the
source reads `state` and `props`), a host instance, a `FiberRoot` (of which
the source reads and writes `context` and `pendingContext`), or the
reconciled children a coroutine fiber stores (abstract type `R`). -/
inductive StateNode (V I Ctx R : Type) where
  | null
  | inst (state : V) (props : V)
  | host (i : I)
  | root (context : Option Ctx) (pendingContext : Option Ctx)
  | co (r : R)
  deriving DecidableEq

/-- The scalar fields of a fiber that `ReactFiberCompleteWork` touches. -/
structure FiberData (V TT I Ctx R : Type) where
  tag : FiberTag
  type : TT
  pendingProps : Option V
  memoizedProps : Option V
  memoizedState : Option V
  stateNode : StateNode V I Ctx R
  updateQueue : Option UpdateQueueFlags
  callbackList : Option UpdateQueueFlags
  effectTag : EffectTag
  ref : Bool
  pendingWorkPriority : Nat

/-- A fiber together with its child list (the source's `child`/`sibling`
pointer chain rendered as a list; `return` pointers are implicit in the
tree shape). -/
inductive Fiber (V TT I Ctx R : Type) where
  | mk (data : FiberData V TT I Ctx R) (children : List (Fiber V TT I Ctx R))

variable {V TT E I C Ctx R : Type}

def Fiber.data : Fiber V TT I Ctx R → FiberData V TT I Ctx R
  | .mk d _ => d

def Fiber.children : Fiber V TT I Ctx R → List (Fiber V TT I Ctx R)
  | .mk _ cs => cs

def StateNode.asInst : StateNode V I Ctx R → Option (V × V)
  | .inst s p => some (s, p)
  | _ => none

def StateNode.asHost : StateNode V I Ctx R → Option I
  | .host i => some i
  | _ => none

def StateNode.asRoot : StateNode V I Ctx R → Option (Option Ctx × Option Ctx)
  | .root c p => some (c, p)
  | _ => none

def StateNode.asCo : StateNode V I Ctx R → Option R
  | .co r => some r
  | _ => none

/-- The `stateNode != null` test of the source. -/
def StateNode.isNull : StateNode V I Ctx R → Bool
  | .null => true
  | _ => false

/-- Modelled from the spec: the provider/consumer and host-container stacks of
`ReactFiberContext` and `ReactFiberHostContext` (§4.6 stack discipline), which
are not under src/.  `completeWork` only pops them and reads their tops. -/
structure StackState (I C Ctx : Type) where
  contextStack : List Ctx
  hostParentStack : List I
  hostContainerStack : List I
  rootHostContainerStack : List C

def popContextProvider (st : StackState I C Ctx) : StackState I C Ctx :=
  { st with contextStack := st.contextStack.tail }

def popHostParent (st : StackState I C Ctx) : StackState I C Ctx :=
  { st with hostParentStack := st.hostParentStack.tail }

def popHostContainer (st : StackState I C Ctx) : StackState I C Ctx :=
  { st with hostContainerStack := st.hostContainerStack.tail }

def getHostContainerOnStack (st : StackState I C Ctx) : Option I :=
  st.hostContainerStack.head?

def getRootHostContainerOnStack (st : StackState I C Ctx) : Option C :=
  st.rootHostContainerStack.head?

/-- The host `config` the module factory closes over, together with its module
imports.  `prepareUpdate` returns an update payload or null in the source and
is only tested for truthiness, so it is modelled as returning `Bool`;
`finalizeInitialChildren` has host side effects the claims never observe, its
Boolean result is ignored by the source.  `getCoroutine` is the (Flow-typed)
reading of a `pendingProps` value as a `ReactCoroutine`, yielding its `props`
and `handler`; `reconcileChildFibers` is the import from `ReactChildFiber`
(not under src/), returning the abstract reconciled-children value `R`;
`isContextProvider` is the import from `ReactFiberContext`. -/
structure CompleteWorkEnv (V TT E I C Ctx R : Type) where
  prepareUpdate : Option I → Option V → Option V → Bool
  finalizeInitialChildren : Option I → TT → V → Option C → Bool
  isContextProvider : Fiber V TT I Ctx R → Bool
  getCoroutine : V → Option (V × (V → List TT → E))
  reconcileChildFibers : Fiber V TT I Ctx R → Option R → E → Nat → R

/-- `markUpdate`: tag the fiber with an update effect. -/
def markUpdate (d : FiberData V TT I Ctx R) : FiberData V TT I Ctx R :=
  { d with effectTag := { d.effectTag with update := true } }

/-- `markCallback`: tag the fiber with a callback effect. -/
def markCallback (d : FiberData V TT I Ctx R) : FiberData V TT I Ctx R :=
  { d with effectTag := { d.effectTag with callback := true } }

/-- `appendAllYields`: the source walks the subtree below the coroutine fiber
through `child`/`sibling`/`return` pointers; on the tree representation this
is the depth-first collection below a child list.  Host component, host text
and portal nodes abort with the source's error; yield components contribute
their `type` and are not descended into; any other node is descended into. -/
def appendAllYields : List (Fiber V TT I Ctx R) → Except String (List TT)
  | [] => .ok []
  | .mk d cs :: rest =>
    if d.tag = .HostComponent ∨ d.tag = .HostText ∨ d.tag = .Portal then
      .error "A coroutine cannot have host component children."
    else if d.tag = .YieldComponent then
      match appendAllYields rest with
      | .ok ys => .ok (d.type :: ys)
      | .error e => .error e
    else
      match appendAllYields cs with
      | .error e => .error e
      | .ok ys1 =>
        match appendAllYields rest with
        | .ok ys2 => .ok (ys1 ++ ys2)
        | .error e => .error e

/-- `moveCoroutineToHandlerPhase`.  A null `pendingProps` throws the source's
'Should be resolved by now'; a non-coroutine value reaches the `fn(props,
yields)` call with a non-function and raises a JavaScript `TypeError`
(modelled by the error string "TypeError"), after `appendAllYields` has run,
matching the source's evaluation order. -/
def moveCoroutineToHandlerPhase (env : CompleteWorkEnv V TT E I C Ctx R)
    (current : Option (Fiber V TT I Ctx R)) (wip : Fiber V TT I Ctx R) :
    Except String (Fiber V TT I Ctx R × R) :=
  match wip.data.pendingProps with
  | none => .error "Should be resolved by now"
  | some v =>
    let d1 := { wip.data with tag := .CoroutineHandlerPhase }
    match appendAllYields wip.children with
    | .error e => .error e
    | .ok yields =>
      match env.getCoroutine v with
      | none => .error "TypeError"
      | some (props, handler) =>
        let nextChildren := handler props yields
        let currentFirstChild : Option R :=
          current.bind (fun c => c.data.stateNode.asCo)
        let priority := d1.pendingWorkPriority
        let result := env.reconcileChildFibers (.mk d1 wip.children)
          currentFirstChild nextChildren priority
        .ok (.mk { d1 with stateNode := .co result } wip.children, result)

/-- The `else` branch of the `HostComponent` case: initial mount or aborted
work (no current alternate, or no host instance yet). -/
def completeHostMount [DecidableEq V] [DecidableEq I] (env : CompleteWorkEnv V TT E I C Ctx R)
    (st : StackState I C Ctx) (inst : Option I) (wip : Fiber V TT I Ctx R) :
    Except String (Fiber V TT I Ctx R × Option R × StackState I C Ctx) :=
  match wip.data.pendingProps with
  | none =>
    if wip.data.stateNode.isNull then
      .error "We must have new props for new mounts."
    else
      -- This can happen when we abort work: return without touching
      -- memoizedProps, as the source's early return does.
      .ok (wip, none, st)
  | some newProps =>
    let rootContainerInstance := getRootHostContainerOnStack st
    let _ := env.finalizeInitialChildren inst wip.data.type newProps
      rootContainerInstance
    let d1 := if wip.data.ref then markUpdate wip.data else wip.data
    .ok (.mk { d1 with memoizedProps := some newProps } wip.children, none, st)

/-- `completeWork(current, workInProgress)`.  Returns the updated
work-in-progress fiber, the fiber returned to the work loop (null for every
tag except the coroutine first phase, which returns the reconciled children),
and the updated stacks; errors are the source's thrown messages, with
"TypeError" standing for a JavaScript dynamic type error on a `stateNode`
whose shape does not match the Flow type of the branch. -/
def completeWork [DecidableEq V] [DecidableEq I] (env : CompleteWorkEnv V TT E I C Ctx R)
    (st : StackState I C Ctx) (current : Option (Fiber V TT I Ctx R))
    (wip : Fiber V TT I Ctx R) :
    Except String (Fiber V TT I Ctx R × Option R × StackState I C Ctx) :=
  match wip.data.tag with
  | .FunctionalComponent =>
    .ok (.mk { wip.data with memoizedProps := wip.data.pendingProps }
      wip.children, none, st)
  | .ClassComponent =>
    -- We are leaving this subtree, so pop context if any.
    let st1 := if env.isContextProvider wip then popContextProvider st else st
    match wip.data.stateNode.asInst with
    | none => .error "TypeError"
    | some (state, props) =>
      -- Transfer state and props from the instance.
      let updateQueue := wip.data.updateQueue
      let d1 := { wip.data with
        memoizedState := some state, memoizedProps := some props }
      let d2 :=
        match current with
        | some c =>
          if c.data.memoizedProps ≠ d1.memoizedProps ∨
              c.data.memoizedState ≠ d1.memoizedState ∨
              (updateQueue.map (fun q => q.isForced)).getD false then
            markUpdate d1
          else d1
        | none => markUpdate d1
      let d3 :=
        if (updateQueue.map (fun q => q.hasCallback)).getD false then
          markCallback { d2 with callbackList := updateQueue }
        else d2
      .ok (.mk d3 wip.children, none, st1)
  | .HostContainer =>
    let d0 := { wip.data with memoizedProps := wip.data.pendingProps }
    let st1 := popContextProvider st
    match d0.stateNode.asRoot with
    | none => .error "TypeError"
    | some (ctx, pending) =>
      let d1 :=
        match pending with
        | some p => { d0 with stateNode := .root (some p) none }
        | none => { d0 with stateNode := .root ctx pending }
      .ok (.mk (markUpdate d1) wip.children, none, st1)
  | .HostComponent =>
    let st1 := popHostParent st
    let inst : Option I := wip.data.stateNode.asHost
    -- instance === getHostContainerOnStack(): reference equality; null never
    -- equals the undefined of an empty stack, hence the isSome guard.
    let st2 :=
      if inst.isSome ∧ inst = getHostContainerOnStack st1 then
        popHostContainer st1
      else st1
    match current with
    | some c =>
      if wip.data.stateNode.isNull then
        completeHostMount env st2 inst wip
      else
        let oldProps := c.data.memoizedProps
        -- If we get updated because one of our children updated, we do not
        -- have newProps so we reuse them: newProps = memoizedProps || oldProps.
        let newProps :=
          match wip.data.pendingProps with
          | some p => some p
          | none =>
            match wip.data.memoizedProps with
            | some p => some p
            | none => oldProps
        let d1 :=
          if env.prepareUpdate inst oldProps newProps then markUpdate wip.data
          else wip.data
        .ok (.mk { d1 with memoizedProps := newProps } wip.children, none, st2)
    | none => completeHostMount env st2 inst wip
  | .HostText =>
    match current with
    | some c =>
      if wip.data.stateNode.isNull then
        .ok (.mk { wip.data with memoizedProps := wip.data.pendingProps }
          wip.children, none, st)
      else
        let oldText := c.data.memoizedProps
        -- If this was a bail out we need to fall back to memoized text.
        let newText :=
          match wip.data.pendingProps with
          | some t => some t
          | none =>
            match wip.data.memoizedProps with
            | some t => some t
            | none => oldText
        let d1 := if oldText ≠ newText then markUpdate wip.data else wip.data
        .ok (.mk { d1 with memoizedProps := newText } wip.children, none, st)
    | none =>
      .ok (.mk { wip.data with memoizedProps := wip.data.pendingProps }
        wip.children, none, st)
  | .CoroutineComponent =>
    match moveCoroutineToHandlerPhase env current wip with
    | .error e => .error e
    | .ok (wip2, r) => .ok (wip2, some r, st)
  | .CoroutineHandlerPhase =>
    -- Reset the tag to now be a first phase coroutine.
    .ok (.mk { wip.data with
      memoizedProps := wip.data.pendingProps,
      tag := .CoroutineComponent } wip.children, none, st)
  | .YieldComponent =>
    -- Does nothing.
    .ok (wip, none, st)
  | .Fragment =>
    .ok (.mk { wip.data with memoizedProps := wip.data.pendingProps }
      wip.children, none, st)
  | .Portal =>
    .ok (.mk (markUpdate { wip.data with
      memoizedProps := wip.data.pendingProps }) wip.children, none, st)
  | .IndeterminateComponent =>
    .error "An indeterminate component should have become determinate before completing."
  | .otherTag _ =>
    .error "Unknown unit of work tag"

/-- The text a host-text completion resolves: `pendingProps`, falling back on
a bail-out (null `pendingProps`) to the fiber's own memoized text and then to
the current alternate's memoized text. -/
def hostTextFallback (c : Fiber V TT I Ctx R) (wip : Fiber V TT I Ctx R) :
    Option V :=
  match wip.data.pendingProps with
  | some t => some t
  | none =>
    match wip.data.memoizedProps with
    | some t => some t
    | none => c.data.memoizedProps

/-- The fibers on which `completeWork` returns normally: every handled tag,
provided the branch's `stateNode` has the shape its Flow type promises, a
host component has props to mount or an instance to keep, and a coroutine
first phase has resolved coroutine props and no host, text or portal node on
its yield walk. -/
def completesNormally (env : CompleteWorkEnv V TT E I C Ctx R)
    (wip : Fiber V TT I Ctx R) : Prop :=
  match wip.data.tag with
  | .FunctionalComponent => True
  | .ClassComponent => wip.data.stateNode.asInst.isSome
  | .HostContainer => wip.data.stateNode.asRoot.isSome
  | .HostComponent =>
    wip.data.pendingProps.isSome ∨ wip.data.stateNode.isNull = false
  | .HostText => True
  | .CoroutineComponent => ∃ v h, wip.data.pendingProps = some v ∧
      env.getCoroutine v = some h ∧ ∃ ys, appendAllYields wip.children = .ok ys
  | .CoroutineHandlerPhase => True
  | .YieldComponent => True
  | .Fragment => True
  | .Portal => True
  | .IndeterminateComponent => False
  | .otherTag _ => False

/-- Modelled from the spec: an update's payload is either a replacement value
or a pure function of the previous state (§3 Update; the update-queue and
hooks-dispatcher modules are not under src/). -/
inductive Payload (S : Type) where
  | replace (v : S)
  | fn (f : S → S)

variable {S T H A K Err : Type}

def applyPayload (s : S) : Payload S → S
  | .replace v => v
  | .fn f => f s

namespace UpdateQueueModel

/-- Modelled from the spec: a single requested state transition tagged with
its priority token; in the source's convention a lower value is more urgent
(§3 Update). -/
structure Update (S : Type) where
  priority : Nat
  payload : Payload S

def applyUpdate (s : S) (u : Update S) : S :=
  applyPayload s u.payload

/-- Modelled from the spec: `processUpdateQueue` walks the queue strictly in
insertion order, applies the payload of each update whose priority is within
the render priority, and defers the rest by re-linking them, still in order,
into the next queue so they are not lost (§4.2). -/
def processUpdateQueue (p : Nat) (base : S) :
    List (Update S) → S × List (Update S)
  | [] => (base, [])
  | u :: rest =>
    if u.priority ≤ p then processUpdateQueue p (applyUpdate base u) rest
    else
      let out := processUpdateQueue p base rest
      (out.1, u :: out.2)

/-- The committed state of one fiber with its pending update queue. -/
structure RootState (S : Type) where
  committed : S
  queue : List (Update S)

/-- Modelled from the spec: the events visible to one fiber's queue — an
update is enqueued, or a render pass at some priority runs over the queue and
either commits or is interrupted before its commit (§4.3, §5).  An
interrupted pass computed its state on the work-in-progress clone and is
discarded whole; a committed pass promotes the processed state and keeps
exactly the deferred updates. -/
inductive RootEvent (S : Type) where
  | enqueue (u : Update S)
  | renderAttempt (p : Nat) (commits : Bool)

def stepRoot (st : RootState S) : RootEvent S → RootState S
  | .enqueue u => { st with queue := st.queue ++ [u] }
  | .renderAttempt _ false => st
  | .renderAttempt p true =>
    let out := processUpdateQueue p st.committed st.queue
    { committed := out.1, queue := out.2 }

def enqueuedOf : List (RootEvent S) → List (Update S)
  | [] => []
  | .enqueue u :: rest => u :: enqueuedOf rest
  | .renderAttempt _ _ :: rest => enqueuedOf rest

end UpdateQueueModel

namespace DoubleBufferModel

/-- Modelled from the spec: the current/work-in-progress double buffer of one
root (§4.1, §4.5; the work-loop and commit modules are not under src/).
Render-phase mutation applies to the work-in-progress buffer only; a commit
promotes it by one atomic pointer swap; abandoning a render drops it. -/
structure RootBuffers (T : Type) where
  current : T
  wip : Option T

inductive BufferEvent (T : Type) where
  | startRender
  | renderMutate (f : T → T)
  | abandonRender
  | commit

def stepBuffers (st : RootBuffers T) : BufferEvent T → RootBuffers T
  | .startRender => { st with wip := some st.current }
  | .renderMutate f => { st with wip := st.wip.map f }
  | .abandonRender => { st with wip := none }
  | .commit =>
    match st.wip with
    | some t => { current := t, wip := none }
    | none => st

/-- The fully built trees promoted by the commits along a run. -/
def committedTrees (st : RootBuffers T) : List (BufferEvent T) → List T
  | [] => []
  | ev :: rest =>
    match ev, st.wip with
    | .commit, some t => t :: committedTrees (stepBuffers st ev) rest
    | _, _ => committedTrees (stepBuffers st ev) rest

end DoubleBufferModel

namespace PassiveEffectModel

/-- Modelled from the spec: one passive effect of a commit — its create
callback is pending, and it may carry a pending destroy (cleanup) left over
from the previous commit (§4.5(3); the commit module is not under src/). -/
structure PassiveEffect (A : Type) where
  owner : A
  hasDestroy : Bool

inductive PassiveEvent (A : Type) where
  | destroyOf (owner : A)
  | createOf (owner : A)
  deriving DecidableEq, Repr

def PassiveEvent.isDestroy : PassiveEvent A → Bool
  | .destroyOf _ => true
  | .createOf _ => false

def PassiveEvent.isCreate : PassiveEvent A → Bool
  | .destroyOf _ => false
  | .createOf _ => true

/-- Modelled from the spec: flushing the passive effects of a commit runs all
pending destroy callbacks across the whole committed tree — siblings
included — before running any create callback of that same commit
(§4.5(3)). -/
def flushPassiveEffects (fx : List (PassiveEffect A)) : List (PassiveEvent A) :=
  (fx.filter (fun e => e.hasDestroy)).map (fun e => .destroyOf e.owner) ++
    fx.map (fun e => .createOf e.owner)

end PassiveEffectModel

namespace PassiveErrorModel

/-- Modelled from the spec: one pending passive cleanup of a flush batch; its
invocation either returns normally or throws (§7 passive-effect error). -/
structure Cleanup (A Err : Type) where
  owner : A
  thrown : Option Err

/-- Modelled from the spec: running a cleanup batch attempts every cleanup in
order even after one throws, collecting the errors (§7). -/
def runCleanupBatch : List (Cleanup A Err) → List A × List Err
  | [] => ([], [])
  | c :: rest =>
    let out := runCleanupBatch rest
    (c.owner :: out.1,
      match c.thrown with
      | some e => e :: out.2
      | none => out.2)

/-- Modelled from the spec: after the whole batch has been attempted the first
collected error is re-thrown to the caller; the already-committed host tree
is passed through untouched (§7). -/
def flushCleanups (host : H) (batch : List (Cleanup A Err)) :
    List A × Option Err × H :=
  let out := runCleanupBatch batch
  (out.1, out.2.head?, host)

end PassiveErrorModel

namespace RenderPhaseUpdateModel

/-- The capped iteration guard for render-phase update loops. -/
def RE_RENDER_LIMIT : Nat := 25

/-- The state after one render round: the render-phase updates the component
scheduled while rendering with state `s` are applied to `s` in order. -/
def stepState (render : S → List (Payload S)) (s : S) : S :=
  (render s).foldl applyPayload s

/-- Modelled from the spec: the render-phase update loop of the hooks
dispatcher (not under src/) — re-render while the component keeps scheduling
updates during its own render; the capped iteration guard makes exceeding the
bound a fatal, user-visible error instead of an infinite loop (§4.2). -/
def renderLoopAux (render : S → List (Payload S)) : Nat → S → Except String S
  | 0, _ =>
    .error "Too many re-renders. React limits the number of renders to prevent an infinite loop."
  | fuel + 1, s =>
    if (render s).isEmpty then .ok s
    else renderLoopAux render fuel (stepState render s)

def renderWithRenderPhaseUpdates (render : S → List (Payload S)) (s : S) :
    Except String S :=
  renderLoopAux render (RE_RENDER_LIMIT + 1) s

end RenderPhaseUpdateModel

namespace KeyedReconcileModel

/-- Modelled from the spec: an existing keyed child with the index it occupied
in the old child list and its retained component state (`ReactChildFiber` is
not under src/). -/
structure OldChild (K S : Type) where
  key : K
  oldIndex : Nat
  state : S
  deriving DecidableEq, Repr

/-- The per-child verdict of one reconciliation pass: matched and kept in
place, matched but marked moved (placement), or newly created. -/
inductive ChildOutcome (K S : Type) where
  | placed (key : K) (state : S)
  | moved (key : K) (state : S)
  | inserted (key : K)
  deriving DecidableEq, Repr

/-- Modelled from the spec: the single-pass last-placed-index monotonicity
check (§4.4, §9) — each new child is matched against the old set by key; a
match whose old index is not behind the last placed index stays in place and
advances that index; a match behind it is marked moved; an unmatched key is
inserted. -/
def reconcileRow [DecidableEq K] (old : List (OldChild K S)) :
    Nat → List K → List (ChildOutcome K S)
  | _, [] => []
  | lastPlacedIndex, k :: rest =>
    match old.find? (fun o => decide (o.key = k)) with
    | some o =>
      if o.oldIndex < lastPlacedIndex then
        .moved k o.state :: reconcileRow old lastPlacedIndex rest
      else
        .placed k o.state :: reconcileRow old o.oldIndex rest
    | none => .inserted k :: reconcileRow old lastPlacedIndex rest

/-- Modelled from the spec: matched children are kept or moved per the
last-placed-index check, unmatched new children are inserted, unmatched old
children are deleted (§4.4). -/
def reconcileKeyed [DecidableEq K] (old : List (OldChild K S))
    (newKeys : List K) : List (ChildOutcome K S) × List K :=
  (reconcileRow old 0 newKeys,
    (old.filter (fun o => ! newKeys.contains o.key)).map (fun o => o.key))

def countMoved : List (ChildOutcome K S) → Nat
  | [] => 0
  | .moved _ _ :: rest => countMoved rest + 1
  | .placed _ _ :: rest => countMoved rest
  | .inserted _ :: rest => countMoved rest

def countPlaced : List (ChildOutcome K S) → Nat
  | [] => 0
  | .placed _ _ :: rest => countPlaced rest + 1
  | .moved _ _ :: rest => countPlaced rest
  | .inserted _ :: rest => countPlaced rest

def countInserted : List (ChildOutcome K S) → Nat
  | [] => 0
  | .inserted _ :: rest => countInserted rest + 1
  | .placed _ _ :: rest => countInserted rest
  | .moved _ _ :: rest => countInserted rest

end KeyedReconcileModel

namespace HookDispatcherModel

/-- Modelled from the spec: the hook slot of one `useState` call — its
memoized state and its update queue.  The dispatch (updater) function is
bound to the queue once at mount; function reference identity is modelled by
the numeric id of that binding (§9 global dispatcher slots; the hooks
dispatcher is not under src/). -/
structure HookQueue (S : Type) where
  dispatchId : Nat
  pending : List (Payload S)

structure Hook (S : Type) where
  memoizedState : S
  queue : HookQueue S

/-- Mount render: create the hook with the initial state and bind a fresh
dispatch function to its queue; `useState` returns both. -/
def mountState (s0 : S) (freshId : Nat) : Hook S × Nat :=
  (⟨s0, ⟨freshId, []⟩⟩, freshId)

/-- Update render: fold the pending queue into the memoized state and return
the dispatch already bound to the queue — the same function as at mount. -/
def updateState (h : Hook S) : Hook S × Nat :=
  (⟨h.queue.pending.foldl applyPayload h.memoizedState,
    ⟨h.queue.dispatchId, []⟩⟩, h.queue.dispatchId)

/-- Calling a captured updater: the dispatch bound to this hook's queue
appends the payload to that queue; a dispatch bound elsewhere leaves this
hook alone. -/
def dispatchAction (target : Nat) (p : Payload S) (h : Hook S) : Hook S :=
  if h.queue.dispatchId = target then
    { h with queue := ⟨h.queue.dispatchId, h.queue.pending ++ [p]⟩ }
  else h

inductive HookEvent (S : Type) where
  | rerender
  | dispatch (target : Nat) (p : Payload S)

/-- One component instance over time: its hook plus the updaters captured at
each render (the cited test pushes the updater into a list per render). -/
def stepHooks (st : Hook S × List Nat) : HookEvent S → Hook S × List Nat
  | .rerender =>
    let out := updateState st.1
    (out.1, st.2 ++ [out.2])
  | .dispatch t p => (dispatchAction t p st.1, st.2)

def countRenders : List (HookEvent S) → Nat
  | [] => 0
  | .rerender :: rest => countRenders rest + 1
  | .dispatch _ _ :: rest => countRenders rest

end HookDispatcherModel

/-! Concrete fixtures, used to evaluate the theorems on explicit inputs. -/

def natEnv : CompleteWorkEnv Nat Nat Nat Nat Nat Nat Nat where
  prepareUpdate := fun _ o n => decide (o ≠ n)
  finalizeInitialChildren := fun _ _ _ _ => true
  isContextProvider := fun _ => false
  getCoroutine := fun _ => none
  reconcileChildFibers := fun _ _ _ _ => 0

def natStacks : StackState Nat Nat Nat := ⟨[], [], [], []⟩

def baseData : FiberData Nat Nat Nat Nat Nat where
  tag := .Fragment
  type := 0
  pendingProps := none
  memoizedProps := none
  memoizedState := none
  stateNode := .null
  updateQueue := none
  callbackList := none
  effectTag := ⟨false, false, false⟩
  ref := false
  pendingWorkPriority := 0

def classFiberNat : Fiber Nat Nat Nat Nat Nat :=
  .mk { baseData with tag := .ClassComponent, stateNode := .inst 7 8 } []

def classCurrentNat : Fiber Nat Nat Nat Nat Nat :=
  .mk { baseData with
        tag := .ClassComponent, stateNode := .inst 7 8,
        memoizedProps := some 8, memoizedState := some 6 } []

def textFiberNat : Fiber Nat Nat Nat Nat Nat :=
  .mk { baseData with
        tag := .HostText, pendingProps := some 3,
        stateNode := .host 1 } []

def textCurrentNat : Fiber Nat Nat Nat Nat Nat :=
  .mk { baseData with
        tag := .HostText, memoizedProps := some 2,
        stateNode := .host 1 } []

def coroFiberNoProps : Fiber Nat Nat Nat Nat Nat :=
  .mk { baseData with tag := .CoroutineComponent } []

def fragFiberNat : Fiber Nat Nat Nat Nat Nat := .mk baseData []

def indetFiberNat : Fiber Nat Nat Nat Nat Nat :=
  .mk { baseData with tag := .IndeterminateComponent } []

def c1Events : List (UpdateQueueModel.RootEvent Nat) :=
  [.enqueue ⟨5, .replace 1⟩,
   .renderAttempt 0 true,
   .renderAttempt 3 false,
   .enqueue ⟨6, .fn (fun n => n + 10)⟩]

def c2Events : List (DoubleBufferModel.BufferEvent Nat) :=
  [.startRender, .renderMutate (fun t => t + 1), .commit,
   .startRender, .renderMutate (fun t => t + 5), .abandonRender]

def c3Effects : List (PassiveEffectModel.PassiveEffect Nat) :=
  [⟨0, true⟩, ⟨1, true⟩, ⟨2, false⟩]

/-- The cited test's update: the first cleanup throws, its sibling's cleanup
must still run. -/
def c5Batch : List (PassiveErrorModel.Cleanup Nat String) :=
  [⟨0, some "Oops!"⟩, ⟨1, none⟩]

/-- The cited test's component: schedules three render-phase increments while
the count is below 12 ('updates multiple times within same render
function'). -/
def counterRender : Nat → List (Payload Nat) := fun n =>
  if n < 12 then [.fn (fun c => c + 1), .fn (fun c => c + 1),
    .fn (fun c => c + 1)]
  else []

/-- The cited test's component that always schedules a render-phase update
('throws after too many iterations'). -/
def loopingRender : Nat → List (Payload Nat) := fun n => [.replace (n + 1)]

/-- Old children A(key 1), B(key 2), C(key 3) at indices 0, 1, 2. -/
def oldChildrenABC : List (KeyedReconcileModel.OldChild Nat String) :=
  [⟨1, 0, "A"⟩, ⟨2, 1, "B"⟩, ⟨3, 2, "C"⟩]

def otherFiberNat : Fiber Nat Nat Nat Nat Nat :=
  .mk { baseData with tag := .otherTag 99 } []

/-! ## Theorems -/

/-- Helper: a queue all of whose updates are within the render priority is
processed whole, as the left fold of its payloads, deferring nothing. -/
theorem processUpdateQueue_all_included (p : Nat) (base : S)
    (q : List (UpdateQueueModel.Update S)) (h : ∀ u ∈ q, u.priority ≤ p) :
    UpdateQueueModel.processUpdateQueue p base q
      = (q.foldl UpdateQueueModel.applyUpdate base, []) := by
  induction q generalizing base with
  | nil => rfl
  | cons u rest ih =>
    have hu : u.priority ≤ p := h u (List.mem_cons_self u rest)
    simp [UpdateQueueModel.processUpdateQueue, hu,
      ih _ (fun v hv => h v (List.mem_cons_of_mem u hv))]

/-- Helper: a queue none of whose updates is within the render priority is
deferred whole and the state is untouched. -/
theorem processUpdateQueue_none_included (p : Nat) (base : S)
    (q : List (UpdateQueueModel.Update S)) (h : ∀ u ∈ q, ¬ u.priority ≤ p) :
    UpdateQueueModel.processUpdateQueue p base q = (base, q) := by
  induction q with
  | nil => rfl
  | cons u rest ih =>
    have hu := h u (List.mem_cons_self u rest)
    simp [UpdateQueueModel.processUpdateQueue, hu,
      ih (fun v hv => h v (List.mem_cons_of_mem u hv))]

/-- Helper: a run whose committing render attempts all exclude every pending
and enqueued update leaves the committed state alone and accumulates the
enqueued updates, in enqueue order, at the end of the queue. -/
theorem run_no_included_commits (events : List (UpdateQueueModel.RootEvent S)) :
    ∀ st : UpdateQueueModel.RootState S,
      (∀ q, UpdateQueueModel.RootEvent.renderAttempt q true ∈ events →
        ∀ u, u ∈ st.queue ∨ u ∈ UpdateQueueModel.enqueuedOf events →
          ¬ u.priority ≤ q) →
      events.foldl UpdateQueueModel.stepRoot st
        = ⟨st.committed, st.queue ++ UpdateQueueModel.enqueuedOf events⟩ := by
  induction events with
  | nil => intro st _; simp [UpdateQueueModel.enqueuedOf]
  | cons ev rest ih =>
    intro st h
    cases ev with
    | enqueue u =>
      rw [List.foldl_cons]
      have hcond : ∀ q, UpdateQueueModel.RootEvent.renderAttempt q true ∈ rest →
          ∀ v, v ∈ (UpdateQueueModel.stepRoot st (.enqueue u)).queue ∨
            v ∈ UpdateQueueModel.enqueuedOf rest → ¬ v.priority ≤ q := by
        intro q hq v hv
        refine h q (List.mem_cons_of_mem _ hq) v ?_
        simp only [UpdateQueueModel.stepRoot, List.mem_append,
          List.mem_singleton, UpdateQueueModel.enqueuedOf, List.mem_cons] at hv ⊢
        tauto
      rw [ih _ hcond]
      simp [UpdateQueueModel.stepRoot, UpdateQueueModel.enqueuedOf]
    | renderAttempt q b =>
      cases b with
      | false =>
        rw [List.foldl_cons]
        have hstep : UpdateQueueModel.stepRoot st (.renderAttempt q false) = st := rfl
        rw [hstep, ih st ?_]
        · simp [UpdateQueueModel.enqueuedOf]
        · intro r hr v hv
          refine h r (List.mem_cons_of_mem _ hr) v ?_
          simpa [UpdateQueueModel.enqueuedOf] using hv
      | true =>
        have hq := h q (List.mem_cons_self _ _)
        have hnone : UpdateQueueModel.processUpdateQueue q st.committed st.queue
            = (st.committed, st.queue) :=
          processUpdateQueue_none_included _ _ _ (fun u hu => hq u (Or.inl hu))
        rw [List.foldl_cons]
        have hstep : UpdateQueueModel.stepRoot st (.renderAttempt q true) = st := by
          simp [UpdateQueueModel.stepRoot, hnone]
        rw [hstep, ih st ?_]
        · simp [UpdateQueueModel.enqueuedOf]
        · intro r hr v hv
          refine h r (List.mem_cons_of_mem _ hr) v ?_
          simpa [UpdateQueueModel.enqueuedOf] using hv

/-- C1: for a sequence of updates enqueued on one fiber — with render attempts
at arbitrary priorities interleaved, each either interrupted before its
commit or committing at a priority too urgent to include any of the tracked
updates — a committed pass that includes all of them produces exactly the
left fold of their payloads over the previous committed state, in enqueue
order (replacement payloads overwrite, function payloads apply to the
previous state). -/
theorem update_ordering_left_fold (s0 : S)
    (events : List (UpdateQueueModel.RootEvent S)) (p : Nat)
    (hprev : ∀ q, UpdateQueueModel.RootEvent.renderAttempt q true ∈ events →
      ∀ u ∈ UpdateQueueModel.enqueuedOf events, ¬ u.priority ≤ q)
    (hincl : ∀ u ∈ UpdateQueueModel.enqueuedOf events, u.priority ≤ p) :
    (UpdateQueueModel.stepRoot
        (events.foldl UpdateQueueModel.stepRoot ⟨s0, []⟩)
        (.renderAttempt p true)).committed
      = (UpdateQueueModel.enqueuedOf events).foldl
          UpdateQueueModel.applyUpdate s0 := by
  have hrun := run_no_included_commits events ⟨s0, []⟩
    (fun q hq u hu => hprev q hq u (hu.resolve_left (List.not_mem_nil u)))
  rw [hrun]
  simp [UpdateQueueModel.stepRoot,
    processUpdateQueue_all_included p s0 _ hincl]

/-- Witness for C1: two updates (a replacement then a function) enqueued
around a high-priority commit and an interrupted attempt still fold in
enqueue order once a pass includes both: 0 ↦ 1 ↦ 11. -/
theorem update_ordering_left_fold_witness :
    (UpdateQueueModel.stepRoot
        (c1Events.foldl UpdateQueueModel.stepRoot ⟨0, []⟩)
        (.renderAttempt 6 true)).committed = 11 := by
  have h1 : ∀ q, UpdateQueueModel.RootEvent.renderAttempt q true ∈ c1Events →
      ∀ u ∈ UpdateQueueModel.enqueuedOf c1Events, ¬ u.priority ≤ q := by
    intro q hq u hu
    have hu2 : u.priority = 5 ∨ u.priority = 6 := by
      simp only [c1Events, UpdateQueueModel.enqueuedOf, List.mem_cons,
        List.not_mem_nil, or_false] at hu
      rcases hu with rfl | rfl
      · exact Or.inl rfl
      · exact Or.inr rfl
    have hq2 : q = 0 := by
      simp only [c1Events, List.mem_cons, List.not_mem_nil, or_false] at hq
      rcases hq with h | h | h | h
      · simp at h
      · injection h with hqa hqb
      · simp at h
      · simp at h
    subst hq2
    rcases hu2 with h5 | h5 <;> omega
  have h2 : ∀ u ∈ UpdateQueueModel.enqueuedOf c1Events, u.priority ≤ 6 := by
    intro u hu
    simp only [c1Events, UpdateQueueModel.enqueuedOf, List.mem_cons,
      List.not_mem_nil, or_false] at hu
    rcases hu with rfl | rfl <;> decide
  have h := update_ordering_left_fold 0 c1Events 6 h1 h2
  simpa [c1Events, UpdateQueueModel.enqueuedOf, UpdateQueueModel.applyUpdate,
    applyPayload] using h

/-- Helper: along any run of the double buffer, the current pointer is either
still what it started as or one of the fully built trees promoted by a
commit. -/
theorem buffers_current_cases (events : List (DoubleBufferModel.BufferEvent T)) :
    ∀ st : DoubleBufferModel.RootBuffers T,
      (events.foldl DoubleBufferModel.stepBuffers st).current = st.current ∨
      (events.foldl DoubleBufferModel.stepBuffers st).current
        ∈ DoubleBufferModel.committedTrees st events := by
  induction events with
  | nil => intro st; exact Or.inl rfl
  | cons ev rest ih =>
    intro st
    rw [List.foldl_cons]
    rcases ih (DoubleBufferModel.stepBuffers st ev) with h | h
    · cases ev with
      | startRender =>
        exact Or.inl (by simpa [DoubleBufferModel.stepBuffers] using h)
      | renderMutate f =>
        exact Or.inl (by simpa [DoubleBufferModel.stepBuffers] using h)
      | abandonRender =>
        exact Or.inl (by simpa [DoubleBufferModel.stepBuffers] using h)
      | commit =>
        rcases hw : st.wip with _ | t
        · refine Or.inl ?_
          rw [h]
          simp [DoubleBufferModel.stepBuffers, hw]
        · refine Or.inr ?_
          simp only [DoubleBufferModel.committedTrees, hw]
          rw [h]
          simp [DoubleBufferModel.stepBuffers, hw]
    · cases ev with
      | startRender =>
        exact Or.inr (by simpa [DoubleBufferModel.committedTrees] using h)
      | renderMutate f =>
        exact Or.inr (by simpa [DoubleBufferModel.committedTrees] using h)
      | abandonRender =>
        exact Or.inr (by simpa [DoubleBufferModel.committedTrees] using h)
      | commit =>
        rcases hw : st.wip with _ | t
        · exact Or.inr (by simpa [DoubleBufferModel.committedTrees, hw] using h)
        · refine Or.inr ?_
          simp only [DoubleBufferModel.committedTrees, hw]
          exact List.mem_cons_of_mem _ h

/-- C2: no render-phase step is visible through the current pointer — every
event other than a commit leaves `current` unchanged — and after any event
sequence the current tree is either the initial committed tree or one of the
fully built trees promoted by a commit, never a partially mutated one. -/
theorem commit_atomicity :
    (∀ (st : DoubleBufferModel.RootBuffers T)
        (ev : DoubleBufferModel.BufferEvent T),
      ev ≠ .commit →
        (DoubleBufferModel.stepBuffers st ev).current = st.current) ∧
    (∀ (t0 : T) (events : List (DoubleBufferModel.BufferEvent T)),
      (events.foldl DoubleBufferModel.stepBuffers ⟨t0, none⟩).current
        ∈ t0 :: DoubleBufferModel.committedTrees ⟨t0, none⟩ events) := by
  constructor
  · intro st ev hne
    cases ev with
    | startRender => rfl
    | renderMutate f => rfl
    | abandonRender => rfl
    | commit => exact absurd rfl hne
  · intro t0 events
    rcases buffers_current_cases events ⟨t0, none⟩ with h | h
    · exact h ▸ List.mem_cons_self _ _
    · exact List.mem_cons_of_mem _ h

/-- Witness for C2: a mutation step on the work-in-progress buffer leaves the
current tree untouched, and a concrete run with one commit and one abandoned
render observes a committed tree. -/
theorem commit_atomicity_witness :
    (DoubleBufferModel.stepBuffers (⟨0, some 5⟩ : DoubleBufferModel.RootBuffers Nat)
        (.renderMutate (fun t => t + 1))).current
      = (⟨0, some 5⟩ : DoubleBufferModel.RootBuffers Nat).current ∧
    (c2Events.foldl DoubleBufferModel.stepBuffers ⟨0, none⟩).current
      ∈ 0 :: DoubleBufferModel.committedTrees ⟨0, none⟩ c2Events := by
  constructor
  · exact commit_atomicity.1 ⟨0, some 5⟩ (.renderMutate (fun t => t + 1))
      (fun h => DoubleBufferModel.BufferEvent.noConfusion h)
  · exact commit_atomicity.2 0 c2Events

/-- C3: in the event sequence of one passive flush, every destroy (cleanup)
event — across the whole committed tree, siblings included — comes strictly
before every create event of that same commit. -/
theorem passive_destroys_before_creates
    (fx : List (PassiveEffectModel.PassiveEffect A)) (i j : Nat)
    (hi : i < (PassiveEffectModel.flushPassiveEffects fx).length)
    (hj : j < (PassiveEffectModel.flushPassiveEffects fx).length)
    (hdi : ((PassiveEffectModel.flushPassiveEffects fx).get ⟨i, hi⟩).isDestroy
      = true)
    (hcj : ((PassiveEffectModel.flushPassiveEffects fx).get ⟨j, hj⟩).isCreate
      = true) :
    i < j := by
  simp only [PassiveEffectModel.flushPassiveEffects, List.get_eq_getElem] at hdi hcj
  have hi2 := hi
  have hj2 := hj
  simp only [PassiveEffectModel.flushPassiveEffects, List.length_append] at hi2 hj2
  rcases Nat.lt_or_ge i ((fx.filter (fun e => e.hasDestroy)).map
      (fun e => PassiveEffectModel.PassiveEvent.destroyOf e.owner)).length with h1 | h1
  · rcases Nat.lt_or_ge j ((fx.filter (fun e => e.hasDestroy)).map
        (fun e => PassiveEffectModel.PassiveEvent.destroyOf e.owner)).length with h2 | h2
    · exfalso
      rw [List.getElem_append_left h2] at hcj
      simp [PassiveEffectModel.PassiveEvent.isCreate] at hcj
    · omega
  · exfalso
    rw [List.getElem_append_right h1] at hdi
    simp [PassiveEffectModel.PassiveEvent.isDestroy] at hdi

/-- Witness for C3: in a three-effect commit where two effects carry pending
cleanups, the flush emits both destroys at positions 0 and 1 and the creates
from position 2 on; the theorem applied at the boundary gives 1 < 2. -/
theorem passive_destroys_before_creates_witness :
    ((PassiveEffectModel.flushPassiveEffects c3Effects).get ⟨1, by decide⟩).isDestroy
      = true ∧
    ((PassiveEffectModel.flushPassiveEffects c3Effects).get ⟨2, by decide⟩).isCreate
      = true ∧
    (1 : Nat) < 2 := by
  refine ⟨by decide, by decide, ?_⟩
  exact passive_destroys_before_creates c3Effects 1 2 (by decide) (by decide)
    (by decide) (by decide)

/-- Helper: the cleanup-batch runner attempts every cleanup, in order, and
collects exactly the thrown errors, in order. -/
theorem runCleanupBatch_spec (batch : List (PassiveErrorModel.Cleanup A Err)) :
    PassiveErrorModel.runCleanupBatch batch
      = (batch.map (fun c => c.owner), batch.filterMap (fun c => c.thrown)) := by
  induction batch with
  | nil => rfl
  | cons c rest ih =>
    simp [PassiveErrorModel.runCleanupBatch, ih, List.filterMap_cons]
    cases h : c.thrown <;> simp [h]

/-- C5: a passive-cleanup flush attempts every cleanup of the batch — the
siblings of a throwing cleanup included, in order — re-throws the first
thrown error only after the whole batch has been attempted, and passes the
already-committed host tree through unchanged. -/
theorem cleanup_batch_attempts_all (host : H)
    (batch : List (PassiveErrorModel.Cleanup A Err)) :
    (PassiveErrorModel.flushCleanups host batch).1
        = batch.map (fun c => c.owner) ∧
    (PassiveErrorModel.flushCleanups host batch).2.1
        = (batch.filterMap (fun c => c.thrown)).head? ∧
    (PassiveErrorModel.flushCleanups host batch).2.2 = host := by
  simp [PassiveErrorModel.flushCleanups, runCleanupBatch_spec]

/-- C8 counterexample: reconciling old [A(1), B(2), C(3)] against new
[C(3), A(1), B(2)] under the single-pass last-placed-index check marks two
fibers moved (A and B), not exactly one as the claim states. -/
theorem reconcileKeyed_move_front_counterexample :
    KeyedReconcileModel.countMoved
        (KeyedReconcileModel.reconcileKeyed oldChildrenABC [3, 1, 2]).1 = 2 ∧
    KeyedReconcileModel.countMoved
        (KeyedReconcileModel.reconcileKeyed oldChildrenABC [3, 1, 2]).1 ≠ 1 := by
  constructor
  · decide
  · decide

/-- C8 as amended: on that reorder, C is matched and kept in place, A and B
are matched but marked moved, nothing is inserted and nothing is deleted —
all three keyed fibers are reused with their retained states A, B, C. -/
theorem reconcileKeyed_reorder_two_moves :
    KeyedReconcileModel.reconcileKeyed oldChildrenABC [3, 1, 2]
      = ([.placed 3 "C", .moved 1 "A", .moved 2 "B"], []) ∧
    KeyedReconcileModel.countPlaced
        (KeyedReconcileModel.reconcileKeyed oldChildrenABC [3, 1, 2]).1 = 1 ∧
    KeyedReconcileModel.countInserted
        (KeyedReconcileModel.reconcileKeyed oldChildrenABC [3, 1, 2]).1 = 0 := by
  refine ⟨?_, ?_, ?_⟩ <;> decide

/-- Helper: the dispatch identity bound to a hook's queue at mount survives
every later render and dispatch, and each render captures that same
identity. -/
theorem stepHooks_run_id (events : List (HookDispatcherModel.HookEvent S)) :
    ∀ (h : HookDispatcherModel.Hook S) (ups : List Nat),
      (events.foldl HookDispatcherModel.stepHooks (h, ups)).1.queue.dispatchId
          = h.queue.dispatchId ∧
      (events.foldl HookDispatcherModel.stepHooks (h, ups)).2
          = ups ++ List.replicate (HookDispatcherModel.countRenders events)
              h.queue.dispatchId := by
  induction events with
  | nil => intro h ups; simp [HookDispatcherModel.countRenders]
  | cons ev rest ih =>
    intro h ups
    cases ev with
    | rerender =>
      rw [List.foldl_cons]
      have hstep : HookDispatcherModel.stepHooks (h, ups) .rerender
          = ((HookDispatcherModel.updateState h).1,
             ups ++ [h.queue.dispatchId]) := rfl
      rw [hstep]
      rcases ih (HookDispatcherModel.updateState h).1
        (ups ++ [h.queue.dispatchId]) with ⟨ih1, ih2⟩
      have hid : (HookDispatcherModel.updateState h).1.queue.dispatchId
          = h.queue.dispatchId := rfl
      refine ⟨by rw [ih1, hid], ?_⟩
      rw [ih2, hid]
      simp [HookDispatcherModel.countRenders, List.replicate_succ,
        List.append_assoc]
    | dispatch t p =>
      rw [List.foldl_cons]
      have hstep : HookDispatcherModel.stepHooks (h, ups) (.dispatch t p)
          = (HookDispatcherModel.dispatchAction t p h, ups) := rfl
      rw [hstep]
      rcases ih (HookDispatcherModel.dispatchAction t p h) ups with ⟨ih1, ih2⟩
      have hid : (HookDispatcherModel.dispatchAction t p h).queue.dispatchId
          = h.queue.dispatchId := by
        simp only [HookDispatcherModel.dispatchAction]
        split <;> rfl
      exact ⟨by rw [ih1, hid], by rw [ih2, hid,
        HookDispatcherModel.countRenders]⟩

/-- C10: across any sequence of re-renders and dispatches, the updater a
component captures at each render is the one bound at mount — the captured
list holds a single distinct identity — and calling the mount-captured
updater still updates this component's state: the next render folds the
dispatched payload on top of the pending queue. -/
theorem useState_updater_identity (s0 : S) (i0 : Nat)
    (events : List (HookDispatcherModel.HookEvent S)) (p : Payload S) :
    (events.foldl HookDispatcherModel.stepHooks
        ((HookDispatcherModel.mountState s0 i0).1,
          [(HookDispatcherModel.mountState s0 i0).2])).2
      = List.replicate (1 + HookDispatcherModel.countRenders events) i0 ∧
    (HookDispatcherModel.updateState (HookDispatcherModel.dispatchAction i0 p
        (events.foldl HookDispatcherModel.stepHooks
          ((HookDispatcherModel.mountState s0 i0).1,
            [(HookDispatcherModel.mountState s0 i0).2])).1)).1.memoizedState
      = applyPayload
          ((events.foldl HookDispatcherModel.stepHooks
              ((HookDispatcherModel.mountState s0 i0).1,
                [(HookDispatcherModel.mountState s0 i0).2])).1.queue.pending.foldl
            applyPayload
            ((events.foldl HookDispatcherModel.stepHooks
              ((HookDispatcherModel.mountState s0 i0).1,
                [(HookDispatcherModel.mountState s0 i0).2])).1.memoizedState))
          p := by
  rcases stepHooks_run_id events (HookDispatcherModel.mountState s0 i0).1
    [(HookDispatcherModel.mountState s0 i0).2] with ⟨h1, h2⟩
  have hmount : (HookDispatcherModel.mountState s0 i0).1.queue.dispatchId = i0 :=
    rfl
  constructor
  · rw [h2, hmount]
    simp [HookDispatcherModel.mountState, List.replicate_succ,
      Nat.add_comm 1 (HookDispatcherModel.countRenders events)]
  · have hid := h1.trans hmount
    simp [HookDispatcherModel.dispatchAction, hid,
      HookDispatcherModel.updateState, List.foldl_append]

/-- Helper: a render that schedules nothing leaves the state fixed. -/
theorem stepState_of_isEmpty (render : S → List (Payload S)) (s : S)
    (h : (render s).isEmpty = true) :
    RenderPhaseUpdateModel.stepState render s = s := by
  have h2 : render s = [] := List.isEmpty_iff.mp h
  simp [RenderPhaseUpdateModel.stepState, h2]

/-- Helper: once a render schedules nothing, every further round is fixed. -/
theorem stepState_iterate_stab (render : S → List (Payload S)) (s : S)
    (h : (render s).isEmpty = true) :
    ∀ k, (RenderPhaseUpdateModel.stepState render)^[k] s = s := by
  intro k
  induction k with
  | zero => rfl
  | succ n ih =>
    rw [Function.iterate_succ_apply, stepState_of_isEmpty render s h, ih]

/-- Helper: if the loop settles within the fuel, it returns the settled
state. -/
theorem renderLoopAux_reaches (render : S → List (Payload S)) :
    ∀ (fuel n : Nat) (s : S), n < fuel →
      (render ((RenderPhaseUpdateModel.stepState render)^[n] s)).isEmpty
        = true →
      RenderPhaseUpdateModel.renderLoopAux render fuel s
        = .ok ((RenderPhaseUpdateModel.stepState render)^[n] s) := by
  intro fuel
  induction fuel with
  | zero => intro n s hn _; exact absurd hn (Nat.not_lt_zero n)
  | succ f ih =>
    intro n s hn hend
    by_cases h0 : (render s).isEmpty = true
    · have hs := stepState_iterate_stab render s h0 n
      simp [RenderPhaseUpdateModel.renderLoopAux, h0, hs]
    · cases n with
      | zero =>
        rw [Function.iterate_zero_apply] at hend
        exact absurd hend h0
      | succ m =>
        have hend2 : (render ((RenderPhaseUpdateModel.stepState render)^[m]
            (RenderPhaseUpdateModel.stepState render s))).isEmpty = true := by
          rw [← Function.iterate_succ_apply]
          exact hend
        have hrec := ih m (RenderPhaseUpdateModel.stepState render s)
          (by omega) hend2
        rw [Function.iterate_succ_apply]
        simpa [RenderPhaseUpdateModel.renderLoopAux, h0] using hrec

/-- Helper: a component that always schedules a render-phase update exhausts
any fuel and throws the cap error. -/
theorem renderLoopAux_diverges (render : S → List (Payload S))
    (h : ∀ t, (render t).isEmpty = false) :
    ∀ (fuel : Nat) (s : S),
      RenderPhaseUpdateModel.renderLoopAux render fuel s
        = .error "Too many re-renders. React limits the number of renders to prevent an infinite loop." := by
  intro fuel
  induction fuel with
  | zero => intro s; rfl
  | succ f ih =>
    intro s
    simp [RenderPhaseUpdateModel.renderLoopAux, h s, ih]

/-- C4: the render-phase update loop is bounded by the constant 25: a
component that settles within the bound completes normally with the state
obtained by folding each round's scheduled payloads in order, and a
component that keeps scheduling a render-phase update on every render ends
in the fatal, user-visible too-many-re-renders error instead of looping
forever. -/
theorem render_phase_update_cap (render : S → List (Payload S)) (s : S) :
    (∀ n, n ≤ RenderPhaseUpdateModel.RE_RENDER_LIMIT →
      (render ((RenderPhaseUpdateModel.stepState render)^[n] s)).isEmpty
        = true →
      RenderPhaseUpdateModel.renderWithRenderPhaseUpdates render s
        = .ok ((RenderPhaseUpdateModel.stepState render)^[n] s)) ∧
    ((∀ t, (render t).isEmpty = false) →
      RenderPhaseUpdateModel.renderWithRenderPhaseUpdates render s
        = .error "Too many re-renders. React limits the number of renders to prevent an infinite loop.") := by
  constructor
  · intro n hn hend
    have hlt : n < RenderPhaseUpdateModel.RE_RENDER_LIMIT + 1 := by omega
    exact renderLoopAux_reaches render
      (RenderPhaseUpdateModel.RE_RENDER_LIMIT + 1) n s hlt hend
  · intro h
    exact renderLoopAux_diverges render h _ s

/-- Witness for C4: the cited test components — three increments per render
while below 12 settles at 12 within five renders; an unconditional
render-phase set throws the cap error. -/
theorem render_phase_update_cap_witness :
    RenderPhaseUpdateModel.renderWithRenderPhaseUpdates counterRender 0
      = .ok 12 ∧
    RenderPhaseUpdateModel.renderWithRenderPhaseUpdates loopingRender 0
      = .error "Too many re-renders. React limits the number of renders to prevent an infinite loop." := by
  constructor
  · have h := (render_phase_update_cap counterRender 0).1 4 (by decide) rfl
    exact h
  · exact (render_phase_update_cap loopingRender 0).2 (fun t => rfl)

/-- C6: completing a class component transfers the instance's state and props
into the memoized fields, and the fiber carries the Update effect exactly
when it already carried it, or it has no current alternate (initial mount),
or a memoized field changed since the last commit, or the update queue is
marked forced. -/
theorem completeWork_class_transfer [DecidableEq V] [DecidableEq I]
    (env : CompleteWorkEnv V TT E I C Ctx R) (st : StackState I C Ctx)
    (current : Option (Fiber V TT I Ctx R)) (wip : Fiber V TT I Ctx R)
    (s p : V) (hTag : wip.data.tag = .ClassComponent)
    (hInst : wip.data.stateNode = .inst s p) :
    ∃ wip2 st2, completeWork env st current wip = .ok (wip2, none, st2) ∧
      wip2.data.memoizedState = some s ∧
      wip2.data.memoizedProps = some p ∧
      (wip2.data.effectTag.update = true ↔
        (wip.data.effectTag.update = true ∨
          match current with
          | none => True
          | some c => c.data.memoizedProps ≠ some p ∨
              c.data.memoizedState ≠ some s ∨
              (wip.data.updateQueue.map (fun q => q.isForced)).getD false
                = true)) := by
  obtain ⟨d, cs⟩ := wip
  obtain ⟨tag, ty, pp, mp, ms, sn, uq, cl, et, hr, pwp⟩ := d
  simp only [Fiber.data] at hTag hInst ⊢
  subst hTag
  subst hInst
  cases current with
  | none =>
    simp only [completeWork, Fiber.data, StateNode.asInst]
    refine ⟨_, _, rfl, ?_, ?_, ?_⟩ <;>
      by_cases hcb : (uq.map (fun q => q.hasCallback)).getD false = true <;>
        simp [hcb, markUpdate, markCallback, Fiber.data]
  | some c =>
    obtain ⟨cd, ccs⟩ := c
    simp only [completeWork, Fiber.data, StateNode.asInst]
    refine ⟨_, _, rfl, ?_, ?_, ?_⟩ <;>
      by_cases hcond : cd.memoizedProps ≠ some p ∨
          cd.memoizedState ≠ some s ∨
          ((uq.map (fun q => q.isForced)).getD false = true) <;>
        by_cases hcb : (uq.map (fun q => q.hasCallback)).getD false
            = true <;>
          simp [hcond, hcb, markUpdate, markCallback, Fiber.data]

/-- Witness for C6: a class fiber whose instance holds state 7 and props 8,
completed against a current alternate memoizing props 8 and state 6, ends
marked Update because the memoized state changed. -/
theorem completeWork_class_transfer_witness :
    ∃ wip2 st2,
      completeWork natEnv natStacks (some classCurrentNat) classFiberNat
        = .ok (wip2, none, st2) ∧
      wip2.data.memoizedState = some 7 ∧
      wip2.data.memoizedProps = some 8 ∧
      (wip2.data.effectTag.update = true ↔
        (classFiberNat.data.effectTag.update = true ∨
          classCurrentNat.data.memoizedProps ≠ some 8 ∨
          classCurrentNat.data.memoizedState ≠ some 7 ∨
          (classFiberNat.data.updateQueue.map
            (fun q => q.isForced)).getD false = true)) :=
  completeWork_class_transfer natEnv natStacks (some classCurrentNat)
    classFiberNat 7 8 rfl rfl

/-- C7: completing a host-text fiber that has a current alternate and an
existing host instance memoizes the resolved text — `pendingProps`, falling
back on a bail-out to the fiber's memoized text and then the alternate's —
and carries the Update effect exactly when it already carried it or the
resolved text differs from the previously memoized text. -/
theorem completeWork_host_text_diff [DecidableEq V] [DecidableEq I]
    (env : CompleteWorkEnv V TT E I C Ctx R) (st : StackState I C Ctx)
    (c : Fiber V TT I Ctx R) (wip : Fiber V TT I Ctx R)
    (hTag : wip.data.tag = .HostText)
    (hsn : wip.data.stateNode.isNull = false) :
    ∃ wip2 st2, completeWork env st (some c) wip = .ok (wip2, none, st2) ∧
      wip2.data.memoizedProps = hostTextFallback c wip ∧
      (wip2.data.effectTag.update = true ↔
        (wip.data.effectTag.update = true ∨
          c.data.memoizedProps ≠ hostTextFallback c wip)) := by
  obtain ⟨d, cs⟩ := wip
  obtain ⟨tag, ty, pp, mp, ms, sn, uq, cl, et, hr, pwp⟩ := d
  obtain ⟨cd, ccs⟩ := c
  simp only [Fiber.data] at hTag hsn ⊢
  subst hTag
  simp only [completeWork, Fiber.data, hsn, Bool.false_eq_true, if_false]
  refine ⟨_, _, rfl, ?_, ?_⟩
  · cases pp with
    | some t => simp [hostTextFallback, Fiber.data]
    | none =>
      cases mp with
      | some t => simp [hostTextFallback, Fiber.data]
      | none => simp [hostTextFallback, Fiber.data]
  · cases pp with
    | some t =>
      by_cases hneq : cd.memoizedProps ≠ some t <;>
        simp [hneq, hostTextFallback, Fiber.data, markUpdate]
    | none =>
      cases mp with
      | some t =>
        by_cases hneq : cd.memoizedProps ≠ some t <;>
          simp [hneq, hostTextFallback, Fiber.data, markUpdate]
      | none => simp [hostTextFallback, Fiber.data, markUpdate]

/-- Witness for C7: a host-text fiber with pending text 3 against an
alternate memoizing text 2 completes normally, memoizes 3 and is marked
Update because the text differs. -/
theorem completeWork_host_text_diff_witness :
    ∃ wip2 st2,
      completeWork natEnv natStacks (some textCurrentNat) textFiberNat
        = .ok (wip2, none, st2) ∧
      wip2.data.memoizedProps = hostTextFallback textCurrentNat textFiberNat ∧
      (wip2.data.effectTag.update = true ↔
        (textFiberNat.data.effectTag.update = true ∨
          textCurrentNat.data.memoizedProps
            ≠ hostTextFallback textCurrentNat textFiberNat)) :=
  completeWork_host_text_diff natEnv natStacks textCurrentNat textFiberNat
    rfl rfl

/-- C9 counterexample: a coroutine fiber — a handled tag — whose
`pendingProps` is null makes `completeWork` throw 'Should be resolved by
now', so not every handled tag returns without throwing. -/
theorem completeWork_coroutine_null_props :
    completeWork natEnv natStacks none coroFiberNoProps
      = .error "Should be resolved by now" := rfl

/-- C9 as amended: `completeWork` throws the indeterminate-component error on
an IndeterminateComponent fiber and 'Unknown unit of work tag' on any
unrecognized tag, and returns normally on every handled tag provided the
branch's stateNode has the shape its Flow type promises, a host component
has pending props or an existing instance, and a coroutine has resolved
coroutine props and no host, text or portal node on its yield walk. -/
theorem completeWork_tag_classification [DecidableEq V] [DecidableEq I]
    (env : CompleteWorkEnv V TT E I C Ctx R) (st : StackState I C Ctx)
    (current : Option (Fiber V TT I Ctx R)) (wip : Fiber V TT I Ctx R) :
    (wip.data.tag = .IndeterminateComponent →
      completeWork env st current wip
        = .error "An indeterminate component should have become determinate before completing.") ∧
    (∀ n, wip.data.tag = .otherTag n →
      completeWork env st current wip = .error "Unknown unit of work tag") ∧
    (completesNormally env wip →
      ∃ out, completeWork env st current wip = .ok out) := by
  obtain ⟨d, cs⟩ := wip
  obtain ⟨tag, ty, pp, mp, ms, sn, uq, cl, et, hr, pwp⟩ := d
  cases tag with
  | IndeterminateComponent =>
    refine ⟨fun _ => rfl, fun n h => by simp [Fiber.data] at h,
      fun h3 => ?_⟩
    simp [completesNormally, Fiber.data] at h3
  | FunctionalComponent =>
    exact ⟨fun h => by simp [Fiber.data] at h,
      fun n h => by simp [Fiber.data] at h, fun _ => ⟨_, rfl⟩⟩
  | ClassComponent =>
    refine ⟨fun h => by simp [Fiber.data] at h,
      fun n h => by simp [Fiber.data] at h, fun h3 => ?_⟩
    simp only [completesNormally, Fiber.data] at h3
    cases sn with
    | inst s p => exact ⟨_, rfl⟩
    | null => simp [StateNode.asInst] at h3
    | host i => simp [StateNode.asInst] at h3
    | root a b => simp [StateNode.asInst] at h3
    | co r => simp [StateNode.asInst] at h3
  | HostContainer =>
    refine ⟨fun h => by simp [Fiber.data] at h,
      fun n h => by simp [Fiber.data] at h, fun h3 => ?_⟩
    simp only [completesNormally, Fiber.data] at h3
    cases sn with
    | root a b =>
      cases b with
      | none => exact ⟨_, rfl⟩
      | some bp => exact ⟨_, rfl⟩
    | null => simp [StateNode.asRoot] at h3
    | host i => simp [StateNode.asRoot] at h3
    | inst a b => simp [StateNode.asRoot] at h3
    | co r => simp [StateNode.asRoot] at h3
  | HostComponent =>
    refine ⟨fun h => by simp [Fiber.data] at h,
      fun n h => by simp [Fiber.data] at h, fun h3 => ?_⟩
    simp only [completesNormally, Fiber.data] at h3
    cases current with
    | some c =>
      cases sn with
      | null =>
        cases pp with
        | some t => exact ⟨_, rfl⟩
        | none => simp [StateNode.isNull] at h3
      | inst a b => exact ⟨_, rfl⟩
      | host i => exact ⟨_, rfl⟩
      | root a b => exact ⟨_, rfl⟩
      | co r => exact ⟨_, rfl⟩
    | none =>
      cases pp with
      | some t => exact ⟨_, rfl⟩
      | none =>
        cases sn with
        | null => simp [StateNode.isNull] at h3
        | inst a b => exact ⟨_, rfl⟩
        | host i => exact ⟨_, rfl⟩
        | root a b => exact ⟨_, rfl⟩
        | co r => exact ⟨_, rfl⟩
  | HostText =>
    refine ⟨fun h => by simp [Fiber.data] at h,
      fun n h => by simp [Fiber.data] at h, fun _ => ?_⟩
    cases current with
    | some c =>
      cases sn with
      | null => exact ⟨_, rfl⟩
      | inst a b => exact ⟨_, rfl⟩
      | host i => exact ⟨_, rfl⟩
      | root a b => exact ⟨_, rfl⟩
      | co r => exact ⟨_, rfl⟩
    | none => exact ⟨_, rfl⟩
  | CoroutineComponent =>
    refine ⟨fun h => by simp [Fiber.data] at h,
      fun n h => by simp [Fiber.data] at h, fun h3 => ?_⟩
    simp only [completesNormally, Fiber.data] at h3
    obtain ⟨v, co, hpp, hget, ys, hys⟩ := h3
    subst hpp
    simp only [completeWork, moveCoroutineToHandlerPhase, Fiber.data,
      Fiber.children] at hys ⊢
    rw [hys, hget]
    exact ⟨_, rfl⟩
  | CoroutineHandlerPhase =>
    exact ⟨fun h => by simp [Fiber.data] at h,
      fun n h => by simp [Fiber.data] at h, fun _ => ⟨_, rfl⟩⟩
  | YieldComponent =>
    exact ⟨fun h => by simp [Fiber.data] at h,
      fun n h => by simp [Fiber.data] at h, fun _ => ⟨_, rfl⟩⟩
  | Fragment =>
    exact ⟨fun h => by simp [Fiber.data] at h,
      fun n h => by simp [Fiber.data] at h, fun _ => ⟨_, rfl⟩⟩
  | Portal =>
    exact ⟨fun h => by simp [Fiber.data] at h,
      fun n h => by simp [Fiber.data] at h, fun _ => ⟨_, rfl⟩⟩
  | otherTag m =>
    refine ⟨fun h => by simp [Fiber.data] at h, fun n h => rfl,
      fun h3 => ?_⟩
    simp [completesNormally, Fiber.data] at h3

/-- Witness for C9: the indeterminate and unknown tags throw their exact
messages, and a fragment fiber completes normally. -/
theorem completeWork_tag_classification_witness :
    completeWork natEnv natStacks none indetFiberNat
      = .error "An indeterminate component should have become determinate before completing." ∧
    completeWork natEnv natStacks none otherFiberNat
      = .error "Unknown unit of work tag" ∧
    (∃ out, completeWork natEnv natStacks none fragFiberNat = .ok out) := by
  refine ⟨(completeWork_tag_classification natEnv natStacks none
      indetFiberNat).1 rfl,
    (completeWork_tag_classification natEnv natStacks none
      otherFiberNat).2.1 99 rfl,
    (completeWork_tag_classification natEnv natStacks none
      fragFiberNat).2.2 ?_⟩
  simp [completesNormally, fragFiberNat, baseData, Fiber.data]

end ReactFiber
